import Mathlib

/-!
Verification of `get_test_data.py` from swaap-core-v1.

The script fetches, for each token of a selected chain, the latest oracle
round and a number of preceding historical rounds from Chainlink-style
price-feed contracts, and dumps the collected records to `test/data.json`.

We embed the script shallowly:
* the `config` dictionary becomes an association list (Python dicts preserve
  insertion order, which the association list mirrors);
* the web3 contract calls become an abstract `Client` whose two operations
  may fail (`Except String`), modelling uncaught RPC/contract exceptions;
* the 5-tuples returned by `latestRoundData` / `getRoundData` become the
  structure `RoundData` (field `roundId` is tuple component 0, `answer`
  component 1, `startedAt` component 2, `updatedAt` component 3,
  `answeredInRound` component 4);
* the `while True` loop of the script becomes the well-founded recursion
  `histLoop` on the measure `num_rounds - counter`;
* side effects are reified as an `Event` trace: each RPC call issued and
  the final `json.dump` appear in order.  (`print` diagnostics are pure
  console output and are not modelled.)
-/

namespace GetTestData

/-- One 5-tuple response of `latestRoundData` / `getRoundData`.
Component 0 is `roundId`, 1 is `answer`, 2 is `startedAt`, 3 is
`updatedAt`, 4 is `answeredInRound`. -/
structure RoundData where
  roundId : Int
  answer : Int
  startedAt : Int
  updatedAt : Int
  answeredInRound : Int
deriving DecidableEq

/-- One emitted round record: the dictionary
`\x7b"round_id": str(..), "price": str(..), "timestamp": str(..)\x7d`. -/
structure RoundRecord where
  round_id : String
  price : String
  timestamp : String
deriving DecidableEq

/-- The per-token structure `\x7b"oracle": .., "data": [..]\x7d`. -/
structure PerTokenResult where
  oracle : String
  data : List RoundRecord
deriving DecidableEq

/-- `raw_data`: token symbol to per-token result, in insertion order. -/
def ResultDoc : Type := List (String × PerTokenResult)

instance : DecidableEq ResultDoc := by
  unfold ResultDoc
  infer_instance

/-- The abstract RPC client: for a contract address it answers the
`latestRoundData()` call, and `getRoundData(round_id)` for a round id.
A `.error` models an uncaught exception raised by the call. -/
structure Client where
  latestRoundData : String → Except String RoundData
  getRoundData : String → Int → Except String RoundData

/-- Observable side effects of a run, in order. -/
inductive Event where
  | latestCall (addr : String)
  | getRoundCall (addr : String) (round_id : Int)
  | fileWrite (doc : List (String × PerTokenResult))
deriving DecidableEq

/-- The `config` table of the script: chain name to (token symbol to
oracle contract address), in the source's declaration order. -/
def config : List (String × List (String × String)) :=
  [ ("mainnet",
      [ ("ETH", "0x5f4eC3Df9cbd43714FE2740f5E3616155c5b8419"),
        ("BTC", "0xF4030086522a5bEEa4988F8cA5B36dbC97BeE88c"),
        ("DAI", "0xAed0c38402a5d19df6E4c03F4E2DceD6e29c1ee9") ]),
    ("kovan",
      [ ("ETH", "0x9326BFA02ADD2366b30bacB125260Af641031331"),
        ("BTC", "0x6135b13325bfC4B00278B4abC5e20bbce2D6580e"),
        ("DAI", "0x777A68032a88E5A84678A77Af2CD65A7b3c0775a") ]),
    ("rinkeby",
      [ ("ETH", "0x8A753747A1Fa494EC906cE90E9f37563A8AF630e"),
        ("BTC", "0xECe365B379E1dD183B20fc5f022230C044d51404"),
        ("DAI", "0x2bA49Aaa16E6afD2a993473cfB70Fa8559B523cF") ]),
    ("polygon-mainnet",
      [ ("ETH", "0xF9680D99D6C9589e2a93a78A04A279e509205945"),
        ("BTC", "0xc907E116054Ad103354f2D350FD2514433D57F6f"),
        ("DAI", "0x4746DeC9e833A82EC7C2C1356372CcF2cfcD2F3D") ]) ]

/-- Building one record from a response: the script keeps tuple components
0, 1 and 3, converted with `str(..)`. -/
def mkRecord (d : RoundData) : RoundRecord :=
  { round_id := toString d.roundId
    price := toString d.answer
    timestamp := toString d.updatedAt }

/-- The `while True` historical-fetch loop of the script, for one token.
`round_id` is the cursor, `counter` the record counter (arriving here with
value 1, one record already collected from the latest round).  Each
iteration calls `getRoundData(round_id)`, decrements the cursor, appends a
record and increments the counter; it breaks once `counter >= num_rounds`
holds after the increment.  Returns the trace of calls issued and, on
success, the list of records the loop appended. -/
def histLoop (client : Client) (addr : String)
    (round_id counter num_rounds : Int) :
    List Event × Except String (List RoundRecord) :=
  match client.getRoundData addr round_id with
  | .error e => ([Event.getRoundCall addr round_id], Except.error e)
  | .ok hd =>
    if _h : num_rounds ≤ counter + 1 then
      ([Event.getRoundCall addr round_id], Except.ok [mkRecord hd])
    else
      let rest := histLoop client addr (round_id - 1) (counter + 1) num_rounds
      (Event.getRoundCall addr round_id :: rest.1,
        rest.2.map (fun l => mkRecord hd :: l))
termination_by (num_rounds - counter).toNat
decreasing_by
  simp only [not_le] at _h
  omega

/-- The per-token body of the script's `for` loop: the `latestRoundData()`
call, the first record, then the historical loop started with cursor
`latest_round_id - 1` and counter 1. -/
def processToken (client : Client) (addr : String) (num_rounds : Int) :
    List Event × Except String PerTokenResult :=
  match client.latestRoundData addr with
  | .error e => ([Event.latestCall addr], Except.error e)
  | .ok latest =>
    let rest := histLoop client addr (latest.roundId - 1) 1 num_rounds
    (Event.latestCall addr :: rest.1,
      rest.2.map (fun l => { oracle := addr, data := mkRecord latest :: l }))

/-- The `for token in config[chain_name]` loop: processes the tokens in
registry order, stopping at the first uncaught failure. -/
def processTokens (client : Client) (tokens : List (String × String))
    (num_rounds : Int) :
    List Event × Except String (List (String × PerTokenResult)) :=
  match tokens with
  | [] => ([], Except.ok [])
  | (tok, addr) :: rest =>
    let r := processToken client addr num_rounds
    match r.2 with
    | .error e => (r.1, Except.error e)
    | .ok ptr =>
      let rs := processTokens client rest num_rounds
      (r.1 ++ rs.1, rs.2.map (fun doc => (tok, ptr) :: doc))

/-- `main(chain_name, num_rounds)`: looks the chain up in `config`
(a missing key raises `KeyError` before any contract call), processes every
token, and finally writes `raw_data` to `test/data.json` — the single
`fileWrite` event, emitted only after all tokens succeeded. -/
def main (client : Client) (chain_name : String := "mainnet")
    (num_rounds : Int := 10) :
    List Event × Except String (List (String × PerTokenResult)) :=
  match config.lookup chain_name with
  | none => ([], Except.error ("KeyError: " ++ chain_name))
  | some tokens =>
    let r := processTokens client tokens num_rounds
    match r.2 with
    | .error e => (r.1, Except.error e)
    | .ok doc => (r.1 ++ [Event.fileWrite doc], Except.ok doc)

/-!
## A structural mirror of the loop

`histLoop` is defined by well-founded recursion, so it does not reduce
definitionally.  `histN` is the same computation driven by the number of
remaining loop iterations (a `Nat` fuel), and `histLoop_eq_histN` proves
the two agree; `processTokenN`, `processTokensN` and `mainN` replay
`processToken`, `processTokens` and `main` on top of the mirror, so that
concrete runs evaluate by `rfl` and structural induction applies.
-/

/-- Structural companion of `histLoop`: `histN client addr round_id k`
performs exactly `k + 1` loop iterations (unless a call fails), matching
`histLoop client addr round_id counter num_rounds` for
`k = (num_rounds - counter - 1).toNat`. -/
def histN (client : Client) (addr : String) (round_id : Int) :
    Nat → List Event × Except String (List RoundRecord)
  | 0 =>
    match client.getRoundData addr round_id with
    | .error e => ([Event.getRoundCall addr round_id], Except.error e)
    | .ok hd => ([Event.getRoundCall addr round_id], Except.ok [mkRecord hd])
  | k + 1 =>
    match client.getRoundData addr round_id with
    | .error e => ([Event.getRoundCall addr round_id], Except.error e)
    | .ok hd =>
      match histN client addr (round_id - 1) k with
      | (tr, res) =>
        (Event.getRoundCall addr round_id :: tr,
          res.map (fun l => mkRecord hd :: l))


/-- `processToken` with the loop replaced by its structural mirror. -/
def processTokenN (client : Client) (addr : String) (num_rounds : Int) :
    List Event × Except String PerTokenResult :=
  match client.latestRoundData addr with
  | .error e => ([Event.latestCall addr], Except.error e)
  | .ok latest =>
    match histN client addr (latest.roundId - 1) (num_rounds - 1 - 1).toNat with
    | (tr, .error e) => (Event.latestCall addr :: tr, Except.error e)
    | (tr, .ok l) =>
      (Event.latestCall addr :: tr,
        Except.ok { oracle := addr, data := mkRecord latest :: l })


/-- `processTokens` with the loop replaced by its structural mirror. -/
def processTokensN (client : Client) (tokens : List (String × String))
    (num_rounds : Int) :
    List Event × Except String (List (String × PerTokenResult)) :=
  match tokens with
  | [] => ([], Except.ok [])
  | (tok, addr) :: rest =>
    match processTokenN client addr num_rounds with
    | (tr, .error e) => (tr, Except.error e)
    | (tr, .ok ptr) =>
      match processTokensN client rest num_rounds with
      | (tr2, res2) => (tr ++ tr2, res2.map (fun doc => (tok, ptr) :: doc))


/-- `main` with the loop replaced by its structural mirror. -/
def mainN (client : Client) (chain_name : String) (num_rounds : Int) :
    List Event × Except String (List (String × PerTokenResult)) :=
  match config.lookup chain_name with
  | none => ([], Except.error ("KeyError: " ++ chain_name))
  | some tokens =>
    match processTokensN client tokens num_rounds with
    | (tr, .error e) => (tr, Except.error e)
    | (tr, .ok doc) => (tr ++ [Event.fileWrite doc], Except.ok doc)


/-!
## Response agreement (for the dependency claim)
-/

/-- Two call responses agree on tuple components 0, 1 and 3 (the only ones
the script reads), and on failure. -/
def respAgree : Except String RoundData → Except String RoundData → Prop
  | .ok x, .ok y => x.roundId = y.roundId ∧ x.answer = y.answer ∧ x.updatedAt = y.updatedAt
  | .error e1, .error e2 => e1 = e2
  | _, _ => False

/-!
## Concrete clients and documents used as witnesses
-/

/-- The mocked RPC client of the spec's end-to-end example:
`latestRoundData() = (100, 123456, 0, 999, 100)`,
`getRoundData(99) = (99, 123000, 0, 998, 99)`,
`getRoundData(98) = (98, 122900, 0, 997, 98)`, any other round fails. -/
def mockClient : Client :=
  { latestRoundData := fun _ => Except.ok ⟨100, 123456, 0, 999, 100⟩
    getRoundData := fun _ r =>
      if r = 99 then Except.ok ⟨99, 123000, 0, 998, 99⟩
      else if r = 98 then Except.ok ⟨98, 122900, 0, 997, 98⟩
      else Except.error ("no data for round " ++ toString r) }

/-- `mockClient` with different `startedAt` (component 2) and
`answeredInRound` (component 4) values on every response. -/
def mockClientB : Client :=
  { latestRoundData := fun _ => Except.ok ⟨100, 123456, 777, 999, 42⟩
    getRoundData := fun _ r =>
      if r = 99 then Except.ok ⟨99, 123000, 555, 998, 41⟩
      else if r = 98 then Except.ok ⟨98, 122900, 444, 997, 40⟩
      else Except.error ("no data for round " ++ toString r) }

/-- A client all of whose calls raise. -/
def failClient : Client :=
  { latestRoundData := fun _ => Except.error ("RPC timeout")
    getRoundData := fun _ _ => Except.error ("RPC timeout") }

/-- The record built from the mocked latest round. -/
def rec100 : RoundRecord := { round_id := "100", price := "123456", timestamp := "999" }

/-- The record built from the mocked round 99. -/
def rec99 : RoundRecord := { round_id := "99", price := "123000", timestamp := "998" }

/-- The record built from the mocked round 98. -/
def rec98 : RoundRecord := { round_id := "98", price := "122900", timestamp := "997" }

/-- The mainnet ETH oracle address. -/
def ethAddr : String := "0x5f4eC3Df9cbd43714FE2740f5E3616155c5b8419"

/-- The ETH entry that `main mockClient "mainnet" 3` produces. -/
def ethPtr3 : PerTokenResult := { oracle := ethAddr, data := [rec100, rec99, rec98] }

/-- The whole document that `main mockClient "mainnet" 3` produces. -/
def mockDoc3 : List (String × PerTokenResult) :=
  [ ("ETH", ethPtr3),
    ("BTC", { oracle := "0xF4030086522a5bEEa4988F8cA5B36dbC97BeE88c"
              data := [rec100, rec99, rec98] }),
    ("DAI", { oracle := "0xAed0c38402a5d19df6E4c03F4E2DceD6e29c1ee9"
              data := [rec100, rec99, rec98] }) ]

/-- The ETH entry that `main mockClient "mainnet" 1` produces: the loop
body runs once even though `num_rounds = 1`, so `data` has two records. -/
def ethPtr1 : PerTokenResult := { oracle := ethAddr, data := [rec100, rec99] }

/-!
## Bridge theorems between the source functions and the mirror
-/

theorem histLoop_eq_histN (client : Client) (addr : String)
    (round_id counter num_rounds : Int) :
    histLoop client addr round_id counter num_rounds =
      histN client addr round_id (num_rounds - counter - 1).toNat := by
  induction round_id, counter, num_rounds using histLoop.induct client addr with
  | case1 rid c n e hcall =>
    rw [histLoop]
    rcases h0 : (n - c - 1).toNat with k0 | k0 <;> simp [histN, hcall]
  | case2 rid c n hd hcall hle =>
    rw [histLoop]
    have h0 : (n - c - 1).toNat = 0 := by omega
    simp [histN, hcall, hle, h0]
  | case3 rid c n hd hcall hle ih =>
    rw [histLoop]
    simp only [hcall]
    rw [dif_neg hle]
    have h0 : (n - c - 1).toNat = (n - (c + 1) - 1).toNat + 1 := by omega
    rw [h0, ih]
    cases hh : histN client addr (rid - 1) (n - (c + 1) - 1).toNat with
    | mk tr res =>
      simp only [histN, hcall, hh]

theorem processToken_eq_N (client : Client) (addr : String) (num_rounds : Int) :
    processToken client addr num_rounds = processTokenN client addr num_rounds := by
  unfold processToken processTokenN
  cases hl : client.latestRoundData addr with
  | error e => rfl
  | ok L =>
    simp only [histLoop_eq_histN]
    cases hh : histN client addr (L.roundId - 1) (num_rounds - 1 - 1).toNat with
    | mk tr res =>
      cases res <;> simp [hh, Except.map]

theorem processTokens_eq_N (client : Client) (tokens : List (String × String))
    (num_rounds : Int) :
    processTokens client tokens num_rounds = processTokensN client tokens num_rounds := by
  induction tokens with
  | nil => rfl
  | cons p rest ih =>
    obtain ⟨tok, addr⟩ := p
    unfold processTokens processTokensN
    cases hp : processTokenN client addr num_rounds with
    | mk tr res =>
      cases res with
      | error e => simp [processToken_eq_N, hp]
      | ok ptr =>
        cases hr : processTokensN client rest num_rounds with
        | mk tr2 res2 =>
          cases res2 <;> simp [processToken_eq_N, ih, hp, hr, Except.map]

theorem main_eq_mainN (client : Client) (chain_name : String) (num_rounds : Int) :
    main client chain_name num_rounds = mainN client chain_name num_rounds := by
  unfold main mainN
  cases hl : config.lookup chain_name with
  | none => rfl
  | some tokens =>
    simp only [processTokens_eq_N]
    cases hr : processTokensN client tokens num_rounds with
    | mk tr res => cases res <;> simp [hr]

theorem main_mock3_eval : (main mockClient "mainnet" 3).2 = Except.ok mockDoc3 := by
  rw [main_eq_mainN]
  rfl

/-!
## Structural lemmas about the loop and the run
-/

theorem histN_ok_length (client : Client) (addr : String) (round_id : Int) (k : Nat)
    (l : List RoundRecord) (h : (histN client addr round_id k).2 = Except.ok l) :
    l.length = k + 1 := by
  induction k generalizing round_id l with
  | zero =>
    cases hc : client.getRoundData addr round_id with
    | error e => simp only [histN, hc] at h; exact (Except.noConfusion h)
    | ok hd =>
      simp only [histN, hc] at h
      have hinj := Except.ok.inj h
      subst hinj
      rfl
  | succ k ih =>
    cases hc : client.getRoundData addr round_id with
    | error e => simp only [histN, hc] at h; exact (Except.noConfusion h)
    | ok hd =>
      cases hh : histN client addr (round_id - 1) k with
      | mk tr res =>
        cases res with
        | error e =>
          simp only [histN, hc, hh, Except.map] at h
          exact (Except.noConfusion h)
        | ok l2 =>
          simp only [histN, hc, hh, Except.map] at h
          have hinj := Except.ok.inj h
          subst hinj
          have hlen := ih (round_id - 1) l2 (by rw [hh])
          simp [hlen]

theorem histN_ok_get (client : Client) (addr : String) (round_id : Int) (k : Nat)
    (l : List RoundRecord) (h : (histN client addr round_id k).2 = Except.ok l) :
    ∀ i : Nat, i < l.length →
      ∃ hd, client.getRoundData addr (round_id - i) = Except.ok hd ∧
        l[i]? = some (mkRecord hd) := by
  induction k generalizing round_id l with
  | zero =>
    cases hc : client.getRoundData addr round_id with
    | error e => simp only [histN, hc] at h; exact (Except.noConfusion h)
    | ok hd =>
      simp only [histN, hc] at h
      have hinj := Except.ok.inj h
      subst hinj
      intro i hi
      have hi0 : i = 0 := by simpa using Nat.lt_one_iff.mp (by simpa using hi)
      subst hi0
      exact ⟨hd, by simpa using hc, by simp⟩
  | succ k ih =>
    cases hc : client.getRoundData addr round_id with
    | error e => simp only [histN, hc] at h; exact (Except.noConfusion h)
    | ok hd =>
      cases hh : histN client addr (round_id - 1) k with
      | mk tr res =>
        cases res with
        | error e =>
          simp only [histN, hc, hh, Except.map] at h
          exact (Except.noConfusion h)
        | ok l2 =>
          simp only [histN, hc, hh, Except.map] at h
          have hinj := Except.ok.inj h
          subst hinj
          intro i hi
          match i with
          | 0 => exact ⟨hd, by simpa using hc, by simp⟩
          | Nat.succ j =>
            have hj : j < l2.length := by simpa using hi
            obtain ⟨hd2, hcall, hget⟩ := ih (round_id - 1) l2 (by rw [hh]) j hj
            refine ⟨hd2, ?_, by simpa using hget⟩
            have harith : round_id - (↑(j + 1) : Int) = round_id - 1 - (↑j : Int) := by
              push_cast
              ring
            rw [harith]
            exact hcall

theorem histN_no_fileWrite (client : Client) (addr : String) (round_id : Int) (k : Nat)
    (d : List (String × PerTokenResult)) :
    Event.fileWrite d ∉ (histN client addr round_id k).1 := by
  induction k generalizing round_id with
  | zero => cases hc : client.getRoundData addr round_id <;> simp [histN, hc]
  | succ k ih =>
    cases hc : client.getRoundData addr round_id with
    | error e => simp [histN, hc]
    | ok hd =>
      cases hh : histN client addr (round_id - 1) k with
      | mk tr res =>
        simp only [histN, hc, hh]
        have h0 := ih (round_id - 1)
        rw [hh] at h0
        simp only [List.mem_cons, not_or]
        exact ⟨by simp, by simpa using h0⟩

theorem processToken_ok_shape (client : Client) (addr : String) (n : Int)
    (ptr : PerTokenResult) (h : (processToken client addr n).2 = Except.ok ptr) :
    ∃ L l, client.latestRoundData addr = Except.ok L ∧
      (histN client addr (L.roundId - 1) (n - 1 - 1).toNat).2 = Except.ok l ∧
      ptr = { oracle := addr, data := mkRecord L :: l } := by
  rw [processToken_eq_N] at h
  cases hl : client.latestRoundData addr with
  | error e =>
    simp only [processTokenN, hl] at h
    exact (Except.noConfusion h)
  | ok L =>
    cases hh : histN client addr (L.roundId - 1) (n - 1 - 1).toNat with
    | mk tr res =>
      cases res with
      | error e =>
        simp only [processTokenN, hl, hh] at h
        exact (Except.noConfusion h)
      | ok l =>
        simp only [processTokenN, hl, hh] at h
        exact ⟨L, l, rfl, by rw [hh], (Except.ok.inj h).symm⟩

theorem processToken_ok_oracle (client : Client) (addr : String) (n : Int)
    (ptr : PerTokenResult) (h : (processToken client addr n).2 = Except.ok ptr) :
    ptr.oracle = addr := by
  obtain ⟨L, l, -, -, hptr⟩ := processToken_ok_shape client addr n ptr h
  rw [hptr]

theorem processToken_no_fileWrite (client : Client) (addr : String) (n : Int)
    (d : List (String × PerTokenResult)) :
    Event.fileWrite d ∉ (processToken client addr n).1 := by
  rw [processToken_eq_N]
  cases hl : client.latestRoundData addr with
  | error e => simp [processTokenN, hl]
  | ok L =>
    cases hh : histN client addr (L.roundId - 1) (n - 1 - 1).toNat with
    | mk tr res =>
      have h0 := histN_no_fileWrite client addr (L.roundId - 1) (n - 1 - 1).toNat d
      rw [hh] at h0
      cases res with
      | error e =>
        simp only [processTokenN, hl, hh, List.mem_cons, not_or]
        exact ⟨by simp, by simpa using h0⟩
      | ok l =>
        simp only [processTokenN, hl, hh, List.mem_cons, not_or]
        exact ⟨by simp, by simpa using h0⟩

theorem processTokens_no_fileWrite (client : Client) (tokens : List (String × String))
    (n : Int) (d : List (String × PerTokenResult)) :
    Event.fileWrite d ∉ (processTokens client tokens n).1 := by
  rw [processTokens_eq_N]
  induction tokens with
  | nil => simp [processTokensN]
  | cons p rest ih =>
    obtain ⟨tok, addr⟩ := p
    cases hp : processTokenN client addr n with
    | mk tr res =>
      have h0 := processToken_no_fileWrite client addr n d
      rw [processToken_eq_N, hp] at h0
      cases res with
      | error e =>
        simp only [processTokensN, hp]
        simpa using h0
      | ok ptr =>
        cases hr : processTokensN client rest n with
        | mk tr2 res2 =>
          rw [hr] at ih
          simp only [processTokensN, hp, hr, List.mem_append, not_or]
          exact ⟨by simpa using h0, by simpa using ih⟩

theorem processTokens_ok_map (client : Client) (tokens : List (String × String))
    (n : Int) (doc : List (String × PerTokenResult))
    (h : (processTokens client tokens n).2 = Except.ok doc) :
    doc.map (fun tp => (tp.1, tp.2.oracle)) = tokens := by
  rw [processTokens_eq_N] at h
  induction tokens generalizing doc with
  | nil =>
    simp only [processTokensN] at h
    have hinj := Except.ok.inj h
    subst hinj
    rfl
  | cons p rest ih =>
    obtain ⟨tok, addr⟩ := p
    cases hp : processTokenN client addr n with
    | mk tr res =>
      cases res with
      | error e =>
        simp only [processTokensN, hp] at h
        exact (Except.noConfusion h)
      | ok ptr =>
        cases hr : processTokensN client rest n with
        | mk tr2 res2 =>
          cases res2 with
          | error e =>
            simp only [processTokensN, hp, hr, Except.map] at h
            exact (Except.noConfusion h)
          | ok doc2 =>
            simp only [processTokensN, hp, hr, Except.map] at h
            have hinj := Except.ok.inj h
            subst hinj
            have ho : ptr.oracle = addr :=
              processToken_ok_oracle client addr n ptr (by rw [processToken_eq_N, hp])
            have hrec := ih doc2 (by rw [hr])
            simp [ho, hrec]

theorem processTokens_ok_mem (client : Client) (tokens : List (String × String))
    (n : Int) (doc : List (String × PerTokenResult))
    (h : (processTokens client tokens n).2 = Except.ok doc) :
    ∀ tp ∈ doc, (tp.1, tp.2.oracle) ∈ tokens ∧
      (processToken client tp.2.oracle n).2 = Except.ok tp.2 := by
  rw [processTokens_eq_N] at h
  induction tokens generalizing doc with
  | nil =>
    simp only [processTokensN] at h
    have hinj := Except.ok.inj h
    subst hinj
    simp
  | cons p rest ih =>
    obtain ⟨tok, addr⟩ := p
    cases hp : processTokenN client addr n with
    | mk tr res =>
      cases res with
      | error e =>
        simp only [processTokensN, hp] at h
        exact (Except.noConfusion h)
      | ok ptr =>
        cases hr : processTokensN client rest n with
        | mk tr2 res2 =>
          cases res2 with
          | error e =>
            simp only [processTokensN, hp, hr, Except.map] at h
            exact (Except.noConfusion h)
          | ok doc2 =>
            simp only [processTokensN, hp, hr, Except.map] at h
            have hinj := Except.ok.inj h
            subst hinj
            intro tp htp
            have ho : ptr.oracle = addr :=
              processToken_ok_oracle client addr n ptr (by rw [processToken_eq_N, hp])
            rcases List.mem_cons.mp htp with heq | hmem
            · subst heq
              refine ⟨by simp [ho], ?_⟩
              show (processToken client ptr.oracle n).2 = Except.ok ptr
              rw [ho, processToken_eq_N, hp]
            · obtain ⟨h1, h2⟩ := ih doc2 (by rw [hr]) tp hmem
              exact ⟨List.mem_cons_of_mem _ h1, h2⟩

theorem main_ok_cases (client : Client) (chain_name : String) (n : Int)
    (doc : List (String × PerTokenResult))
    (h : (main client chain_name n).2 = Except.ok doc) :
    ∃ tokens, config.lookup chain_name = some tokens ∧
      (processTokens client tokens n).2 = Except.ok doc := by
  rw [main_eq_mainN] at h
  cases hl : config.lookup chain_name with
  | none =>
    simp only [mainN, hl] at h
    exact (Except.noConfusion h)
  | some tokens =>
    cases hr : processTokensN client tokens n with
    | mk tr res =>
      cases res with
      | error e =>
        simp only [mainN, hl, hr] at h
        exact (Except.noConfusion h)
      | ok doc2 =>
        simp only [mainN, hl, hr] at h
        exact ⟨tokens, rfl, by rw [processTokens_eq_N, hr]; exact h⟩

/-!
## Congruence of the run in the read components of the responses
-/

theorem histN_congr (c1 c2 : Client) (addr : String)
    (hg : ∀ r, respAgree (c1.getRoundData addr r) (c2.getRoundData addr r))
    (round_id : Int) (k : Nat) :
    histN c1 addr round_id k = histN c2 addr round_id k := by
  induction k generalizing round_id with
  | zero =>
    have ha := hg round_id
    cases h1 : c1.getRoundData addr round_id with
    | error e1 =>
      cases h2 : c2.getRoundData addr round_id with
      | error e2 =>
        rw [h1, h2] at ha
        simp only [respAgree] at ha
        subst ha
        simp [histN, h1, h2]
      | ok y =>
        rw [h1, h2] at ha
        simp only [respAgree] at ha
    | ok x =>
      cases h2 : c2.getRoundData addr round_id with
      | error e2 =>
        rw [h1, h2] at ha
        simp only [respAgree] at ha
      | ok y =>
        rw [h1, h2] at ha
        simp only [respAgree] at ha
        have hrec : mkRecord x = mkRecord y := by
          simp [mkRecord, ha.1, ha.2.1, ha.2.2]
        simp [histN, h1, h2, hrec]
  | succ k ih =>
    have ha := hg round_id
    cases h1 : c1.getRoundData addr round_id with
    | error e1 =>
      cases h2 : c2.getRoundData addr round_id with
      | error e2 =>
        rw [h1, h2] at ha
        simp only [respAgree] at ha
        subst ha
        simp [histN, h1, h2]
      | ok y =>
        rw [h1, h2] at ha
        simp only [respAgree] at ha
    | ok x =>
      cases h2 : c2.getRoundData addr round_id with
      | error e2 =>
        rw [h1, h2] at ha
        simp only [respAgree] at ha
      | ok y =>
        rw [h1, h2] at ha
        simp only [respAgree] at ha
        have hrec : mkRecord x = mkRecord y := by
          simp [mkRecord, ha.1, ha.2.1, ha.2.2]
        simp only [histN, h1, h2, hrec, ih (round_id - 1)]

theorem processToken_congr (c1 c2 : Client) (addr : String) (n : Int)
    (hl : respAgree (c1.latestRoundData addr) (c2.latestRoundData addr))
    (hg : ∀ r, respAgree (c1.getRoundData addr r) (c2.getRoundData addr r)) :
    processToken c1 addr n = processToken c2 addr n := by
  rw [processToken_eq_N, processToken_eq_N]
  cases h1 : c1.latestRoundData addr with
  | error e1 =>
    cases h2 : c2.latestRoundData addr with
    | error e2 =>
      rw [h1, h2] at hl
      simp only [respAgree] at hl
      subst hl
      simp [processTokenN, h1, h2]
    | ok y =>
      rw [h1, h2] at hl
      simp only [respAgree] at hl
  | ok x =>
    cases h2 : c2.latestRoundData addr with
    | error e2 =>
      rw [h1, h2] at hl
      simp only [respAgree] at hl
    | ok y =>
      rw [h1, h2] at hl
      simp only [respAgree] at hl
      have hrec : mkRecord x = mkRecord y := by
        simp [mkRecord, hl.1, hl.2.1, hl.2.2]
      have hcursor : x.roundId = y.roundId := hl.1
      simp only [processTokenN, h1, h2, hrec, hcursor, histN_congr c1 c2 addr hg]

theorem processTokens_congr (c1 c2 : Client) (tokens : List (String × String)) (n : Int)
    (hl : ∀ addr, respAgree (c1.latestRoundData addr) (c2.latestRoundData addr))
    (hg : ∀ addr r, respAgree (c1.getRoundData addr r) (c2.getRoundData addr r)) :
    processTokens c1 tokens n = processTokens c2 tokens n := by
  induction tokens with
  | nil => rfl
  | cons p rest ih =>
    obtain ⟨tok, addr⟩ := p
    rw [processTokens_eq_N, processTokens_eq_N]
    simp only [processTokensN]
    rw [show processTokenN c1 addr n = processTokenN c2 addr n from by
          rw [← processToken_eq_N, ← processToken_eq_N]
          exact processToken_congr c1 c2 addr n (hl addr) (fun r => hg addr r)]
    rw [show processTokensN c1 rest n = processTokensN c2 rest n from by
          rw [← processTokens_eq_N, ← processTokens_eq_N]
          exact ih]

/-!
## The claims
-/

/-- Claim C1, counterexample: with `num_rounds = 1` (which satisfies
`num_rounds >= 1`) every token's `data` has length 2, not 1, because the
loop body runs once before the termination check. -/
theorem C1_counterexample :
    (1 : Int) ≥ 1 ∧
    (main mockClient "mainnet" 1).2.map
        (fun doc => doc.map (fun tp => (tp.1, tp.2.data.length))) =
      Except.ok [("ETH", 2), ("BTC", 2), ("DAI", 2)] ∧
    (2 : Nat) ≠ (1 : Int).toNat := by
  refine ⟨by norm_num, ?_, by decide⟩
  rw [main_eq_mainN]
  rfl

/-- Claim C1 (amended): for every chain in the registry and every
`num_rounds >= 2`, every token's `data` sequence in a successfully produced
Result Document has length exactly `num_rounds` (for `num_rounds <= 1` the
length is 2 instead). -/
theorem C1_amended (client : Client) (chain_name : String) (n : Int)
    (doc : List (String × PerTokenResult))
    (h2 : 2 ≤ n) (h : (main client chain_name n).2 = Except.ok doc) :
    ∀ tp ∈ doc, tp.2.data.length = n.toNat := by
  obtain ⟨tokens, -, hpt⟩ := main_ok_cases client chain_name n doc h
  intro tp htp
  obtain ⟨-, hptr⟩ := processTokens_ok_mem client tokens n doc hpt tp htp
  obtain ⟨L, l, -, hloop, hshape⟩ := processToken_ok_shape client tp.2.oracle n tp.2 hptr
  have hlen := histN_ok_length client tp.2.oracle (L.roundId - 1) (n - 1 - 1).toNat l hloop
  have hdata : tp.2.data = mkRecord L :: l := by rw [hshape]
  rw [hdata]
  simp only [List.length_cons, hlen]
  omega

/-- Claim C1 (amended), witness at `mockClient`, mainnet, `num_rounds = 3`. -/
theorem C1_amended_witness :
    ("ETH", ethPtr3) ∈ mockDoc3 ∧ ethPtr3.data.length = (3 : Int).toNat := by
  have h := C1_amended mockClient "mainnet" 3 mockDoc3 (by norm_num) main_mock3_eval
    ("ETH", ethPtr3) (by decide)
  exact ⟨by decide, h⟩

/-- Claim C2: the end-to-end example of the spec.  With the mocked client,
`chain_name = "mainnet"` and `num_rounds = 3`, the ETH entry of the produced
document is exactly the stated object. -/
theorem C2_end_to_end_eth :
    (main mockClient "mainnet" 3).2.map (fun doc => doc.lookup "ETH") =
      Except.ok (some
        { oracle := "0x5f4eC3Df9cbd43714FE2740f5E3616155c5b8419"
          data := [ { round_id := "100", price := "123456", timestamp := "999" },
                    { round_id := "99", price := "123000", timestamp := "998" },
                    { round_id := "98", price := "122900", timestamp := "997" } ] }) := by
  rw [main_eq_mainN]
  rfl

/-- Claim C3: the first element of a token's `data` is built from
components 0, 1 and 3 of the latest-round response; the `(k+1)`-th element
is built the same way from the response of `getRoundData` invoked with
cursor `latest_round_id - k`. -/
theorem C3_data_matches_calls (client : Client) (addr : String) (n : Int)
    (ptr : PerTokenResult) (L : RoundData)
    (hlatest : client.latestRoundData addr = Except.ok L)
    (h : (processToken client addr n).2 = Except.ok ptr) :
    ptr.data.head? = some (mkRecord L) ∧
    ∀ k : Nat, 1 ≤ k → k < ptr.data.length →
      ∃ hd, client.getRoundData addr (L.roundId - k) = Except.ok hd ∧
        ptr.data[k]? = some (mkRecord hd) := by
  obtain ⟨L2, l, hlatest2, hloop, hshape⟩ := processToken_ok_shape client addr n ptr h
  rw [hlatest] at hlatest2
  have hL : L2 = L := (Except.ok.inj hlatest2).symm
  subst hL
  subst hshape
  refine ⟨rfl, ?_⟩
  intro k hk1 hklen
  obtain ⟨j, rfl⟩ : ∃ j, k = j + 1 := ⟨k - 1, by omega⟩
  have hj : j < l.length := by simpa using hklen
  obtain ⟨hd, hcall, hget⟩ :=
    histN_ok_get client addr (L2.roundId - 1) (n - 1 - 1).toNat l hloop j hj
  refine ⟨hd, ?_, by simpa using hget⟩
  have harith : L2.roundId - (↑(j + 1) : Int) = L2.roundId - 1 - (↑j : Int) := by
    push_cast
    ring
  rw [harith]
  exact hcall

/-- Claim C3, witness: in the mocked mainnet run with `num_rounds = 3`, the
second element of the ETH data comes from `getRoundData(100 - 1)`. -/
theorem C3_witness :
    ∃ hd, mockClient.getRoundData ethAddr 99 = Except.ok hd ∧
      ethPtr3.data[1]? = some (mkRecord hd) := by
  have h := C3_data_matches_calls mockClient ethAddr 3 ethPtr3
    ⟨100, 123456, 0, 999, 100⟩ (by rfl) (by rw [processToken_eq_N]; rfl)
  obtain ⟨hd, hcall, hget⟩ := h.2 1 (by norm_num) (by decide)
  refine ⟨hd, ?_, hget⟩
  have harith : (100 : Int) - ((1 : Nat) : Int) = 99 := by norm_num
  rw [← harith]
  exact hcall

/-- Claim C4: when every `getRoundData` response echoes the queried round
id in its component 0, the `round_id` strings of a token's `data` are the
decimal forms of `latest_round_id`, `latest_round_id - 1`, ... : consecutive
entries strictly decrease by 1 starting from the latest round id. -/
theorem C4_round_ids_decrease (client : Client) (addr : String) (n : Int)
    (ptr : PerTokenResult) (L : RoundData)
    (hecho : ∀ r hd, client.getRoundData addr r = Except.ok hd → hd.roundId = r)
    (hlatest : client.latestRoundData addr = Except.ok L)
    (h : (processToken client addr n).2 = Except.ok ptr) :
    ∀ i : Nat, i < ptr.data.length →
      (ptr.data[i]?).map RoundRecord.round_id = some (toString (L.roundId - i)) := by
  obtain ⟨L2, l, hlatest2, hloop, hshape⟩ := processToken_ok_shape client addr n ptr h
  rw [hlatest] at hlatest2
  have hL : L2 = L := (Except.ok.inj hlatest2).symm
  subst hL
  subst hshape
  intro i hi
  match i with
  | 0 => simp [mkRecord]
  | Nat.succ j =>
    have hj : j < l.length := by simpa using hi
    obtain ⟨hd, hcall, hget⟩ :=
      histN_ok_get client addr (L2.roundId - 1) (n - 1 - 1).toNat l hloop j hj
    have hid : hd.roundId = L2.roundId - 1 - j := hecho _ hd hcall
    have hcons : ((mkRecord L2 :: l))[j + 1]? = some (mkRecord hd) := by simpa using hget
    rw [hcons]
    have harith : L2.roundId - 1 - (j : Int) = L2.roundId - ((j + 1 : Nat) : Int) := by
      push_cast
      ring
    simp [mkRecord, hid, harith]

/-- Claim C4, witness: in the mocked mainnet run the third ETH record has
round id `toString (100 - 2) = "98"`. -/
theorem C4_witness :
    (ethPtr3.data[2]?).map RoundRecord.round_id =
      some (toString ((100 : Int) - ((2 : Nat) : Int))) := by
  have hecho : ∀ r hd, mockClient.getRoundData ethAddr r = Except.ok hd →
      hd.roundId = r := by
    intro r hd hcall
    simp only [mockClient] at hcall
    split_ifs at hcall with h99 h98
    · have hh := Except.ok.inj hcall
      rw [← hh, h99]
    · have hh := Except.ok.inj hcall
      rw [← hh, h98]
  have h := C4_round_ids_decrease mockClient ethAddr 3 ethPtr3
    ⟨100, 123456, 0, 999, 100⟩ hecho (by rfl) (by rw [processToken_eq_N]; rfl)
  exact h 2 (by decide)

/-- Claim C5: when the run ends in an uncaught error, no `fileWrite` event
appears in the trace — the output file is written only once, after all
tokens processed, so an error leaves the persistent state unchanged. -/
theorem C5_no_write_on_error (client : Client) (chain_name : String) (n : Int)
    (e : String) (h : (main client chain_name n).2 = Except.error e)
    (d : List (String × PerTokenResult)) :
    Event.fileWrite d ∉ (main client chain_name n).1 := by
  rw [main_eq_mainN] at h ⊢
  cases hl : config.lookup chain_name with
  | none => simp [mainN, hl]
  | some tokens =>
    cases hr : processTokensN client tokens n with
    | mk tr res =>
      cases res with
      | error e2 =>
        simp only [mainN, hl, hr]
        have h0 := processTokens_no_fileWrite client tokens n d
        rw [processTokens_eq_N, hr] at h0
        simpa using h0
      | ok doc =>
        simp only [mainN, hl, hr] at h
        exact (Except.noConfusion h)

/-- Claim C5, witness: with a client whose calls all fail, the mainnet run
errors and its trace contains no file write. -/
theorem C5_witness :
    Event.fileWrite [] ∉ (main failClient "mainnet" 10).1 :=
  C5_no_write_on_error failClient "mainnet" 10 "RPC timeout"
    (by rw [main_eq_mainN]; rfl) []

/-- Claim C6: a chain name absent from the registry makes the run fail with
the `KeyError` lookup failure, with an empty trace — before any network
call (latest-round or get-round-data) is issued. -/
theorem C6_unknown_chain (client : Client) (chain_name : String) (n : Int)
    (h : config.lookup chain_name = none) :
    (main client chain_name n).1 = [] ∧
      (main client chain_name n).2 = Except.error ("KeyError: " ++ chain_name) := by
  rw [main_eq_mainN]
  constructor <;> simp [mainN, h]

/-- Claim C6, witness at the unknown chain name `"goerli"`. -/
theorem C6_witness :
    (main mockClient "goerli" 10).1 = [] ∧
      (main mockClient "goerli" 10).2 = Except.error ("KeyError: " ++ "goerli") :=
  C6_unknown_chain mockClient "goerli" 10 (by rfl)

/-- Claim C7: every `round_id`, `price`, `timestamp` field of every record
of a produced document is the decimal-string (`toString`) form of,
respectively, components 0, 1 and 3 of some response the client returned
for that token's oracle address. -/
theorem C7_decimal_strings (client : Client) (chain_name : String) (n : Int)
    (doc : List (String × PerTokenResult))
    (h : (main client chain_name n).2 = Except.ok doc) :
    ∀ tp ∈ doc, ∀ rec ∈ tp.2.data, ∃ hd : RoundData,
      (client.latestRoundData tp.2.oracle = Except.ok hd ∨
        ∃ r, client.getRoundData tp.2.oracle r = Except.ok hd) ∧
      rec.round_id = toString hd.roundId ∧
      rec.price = toString hd.answer ∧
      rec.timestamp = toString hd.updatedAt := by
  obtain ⟨tokens, -, hpt⟩ := main_ok_cases client chain_name n doc h
  intro tp htp rec hrec
  obtain ⟨-, hptr⟩ := processTokens_ok_mem client tokens n doc hpt tp htp
  obtain ⟨L, l, hlatest, hloop, hshape⟩ := processToken_ok_shape client tp.2.oracle n tp.2 hptr
  have hdata : tp.2.data = mkRecord L :: l := by rw [hshape]
  rw [hdata] at hrec
  rcases List.mem_cons.mp hrec with heq | hmem
  · exact ⟨L, Or.inl hlatest, by rw [heq]; rfl, by rw [heq]; rfl, by rw [heq]; rfl⟩
  · obtain ⟨i, hi⟩ := List.mem_iff_getElem?.mp hmem
    have hilen : i < l.length := by
      by_contra hge
      rw [List.getElem?_eq_none (by omega)] at hi
      exact Option.noConfusion hi
    obtain ⟨hd, hcall, hget⟩ :=
      histN_ok_get client tp.2.oracle (L.roundId - 1) (n - 1 - 1).toNat l hloop i hilen
    rw [hi] at hget
    have hrec2 : rec = mkRecord hd := Option.some.inj hget
    exact ⟨hd, Or.inr ⟨L.roundId - 1 - i, hcall⟩,
      by rw [hrec2]; rfl, by rw [hrec2]; rfl, by rw [hrec2]; rfl⟩

/-- Claim C7, witness: the second ETH record of the mocked mainnet run is
the decimal-string image of some client response. -/
theorem C7_witness :
    ∃ hd : RoundData,
      (mockClient.latestRoundData ethPtr3.oracle = Except.ok hd ∨
        ∃ r, mockClient.getRoundData ethPtr3.oracle r = Except.ok hd) ∧
      rec99.round_id = toString hd.roundId ∧
      rec99.price = toString hd.answer ∧
      rec99.timestamp = toString hd.updatedAt :=
  C7_decimal_strings mockClient "mainnet" 3 mockDoc3 main_mock3_eval
    ("ETH", ethPtr3) (by decide) rec99 (by decide)

/-- Claim C8: for a chain in the registry, a produced document has exactly
the registry's token symbols for that chain, in the registry's declared
order, and each entry's `oracle` is the registry address of that token. -/
theorem C8_registry_entries (client : Client) (chain_name : String) (n : Int)
    (tokens : List (String × String)) (doc : List (String × PerTokenResult))
    (hlook : config.lookup chain_name = some tokens)
    (h : (main client chain_name n).2 = Except.ok doc) :
    doc.map (fun tp => (tp.1, tp.2.oracle)) = tokens := by
  obtain ⟨tokens2, hlook2, hpt⟩ := main_ok_cases client chain_name n doc h
  rw [hlook] at hlook2
  have heq : tokens2 = tokens := (Option.some.inj hlook2).symm
  subst heq
  exact processTokens_ok_map client tokens2 n doc hpt

/-- Claim C8, witness: the mocked mainnet run yields entries
ETH, BTC, DAI in registry order with the registry addresses. -/
theorem C8_witness :
    mockDoc3.map (fun tp => (tp.1, tp.2.oracle)) =
      [ ("ETH", "0x5f4eC3Df9cbd43714FE2740f5E3616155c5b8419"),
        ("BTC", "0xF4030086522a5bEEa4988F8cA5B36dbC97BeE88c"),
        ("DAI", "0xAed0c38402a5d19df6E4c03F4E2DceD6e29c1ee9") ] :=
  C8_registry_entries mockClient "mainnet" 3
    [ ("ETH", "0x5f4eC3Df9cbd43714FE2740f5E3616155c5b8419"),
      ("BTC", "0xF4030086522a5bEEa4988F8cA5B36dbC97BeE88c"),
      ("DAI", "0xAed0c38402a5d19df6E4c03F4E2DceD6e29c1ee9") ]
    mockDoc3 (by rfl) main_mock3_eval

/-- Claim C9: for `num_rounds <= 1` the loop body still executes exactly
once before the termination check, so a token run makes exactly one
get-round-data call (for `latest_round_id - 1`) and produces a `data`
sequence of length exactly 2. -/
theorem C9_small_num_rounds (client : Client) (addr : String) (n : Int)
    (L : RoundData) (hn : n ≤ 1)
    (hlatest : client.latestRoundData addr = Except.ok L) :
    (processToken client addr n).1 =
      [Event.latestCall addr, Event.getRoundCall addr (L.roundId - 1)] ∧
    ∀ ptr, (processToken client addr n).2 = Except.ok ptr → ptr.data.length = 2 := by
  have hfuel : (n - 1 - 1).toNat = 0 := by omega
  constructor
  · rw [processToken_eq_N]
    cases hg : client.getRoundData addr (L.roundId - 1) with
    | error e => simp [processTokenN, hlatest, hfuel, histN, hg]
    | ok hd => simp [processTokenN, hlatest, hfuel, histN, hg]
  · intro ptr hptr
    obtain ⟨L2, l, hl2, hloop, hshape⟩ := processToken_ok_shape client addr n ptr hptr
    rw [hlatest] at hl2
    have hL : L2 = L := (Except.ok.inj hl2).symm
    subst hL
    have hlen := histN_ok_length client addr (L2.roundId - 1) (n - 1 - 1).toNat l hloop
    rw [hfuel] at hlen
    subst hshape
    simp [hlen]

/-- Claim C9, witness: with the mocked client and `num_rounds = 1` the ETH
token run issues exactly the two calls and its `data` has two records. -/
theorem C9_witness :
    (processToken mockClient ethAddr 1).1 =
      [Event.latestCall ethAddr, Event.getRoundCall ethAddr ((100 : Int) - 1)] ∧
    ethPtr1.data.length = 2 := by
  have h := C9_small_num_rounds mockClient ethAddr 1
    ⟨100, 123456, 0, 999, 100⟩ (by norm_num) (by rfl)
  exact ⟨h.1, h.2 ethPtr1 (by rw [processToken_eq_N]; rfl)⟩

/-- Claim C10: the produced result depends only on components 0, 1 and 3
of the responses: two clients whose responses agree on those components
(and on failures) produce identical run results. -/
theorem C10_depends_only_on_components_013 (c1 c2 : Client)
    (chain_name : String) (n : Int)
    (hl : ∀ addr, respAgree (c1.latestRoundData addr) (c2.latestRoundData addr))
    (hg : ∀ addr r, respAgree (c1.getRoundData addr r) (c2.getRoundData addr r)) :
    (main c1 chain_name n).2 = (main c2 chain_name n).2 := by
  rw [main_eq_mainN, main_eq_mainN]
  cases hlk : config.lookup chain_name with
  | none => simp [mainN, hlk]
  | some tokens =>
    simp only [mainN, hlk]
    rw [show processTokensN c1 tokens n = processTokensN c2 tokens n from by
          rw [← processTokens_eq_N, ← processTokens_eq_N]
          exact processTokens_congr c1 c2 tokens n hl hg]

/-- Claim C10, witness: `mockClientB` differs from `mockClient` only in
components 2 (`startedAt`) and 4 (`answeredInRound`), and the mainnet runs
produce identical results. -/
theorem C10_witness :
    (main mockClient "mainnet" 3).2 = (main mockClientB "mainnet" 3).2 := by
  apply C10_depends_only_on_components_013
  · intro addr
    simp [respAgree, mockClient, mockClientB]
  · intro addr r
    simp only [mockClient, mockClientB]
    split_ifs with h99 h98 <;> simp [respAgree]

end GetTestData
